import Mathlib

/-!
Shallow embedding of the clemcore environment state machine:
the generic game environment (environment.py), its grid specialization
(grid_environment/grid_environment.py, grid_environment/inclusive_grid_environment.py),
and the turn orchestrator (envs/master.py).

Python dicts become ordered association lists, mutation becomes explicit state
passing, and code paths that raise become `Except String` results carrying the
exception kind. Machine integers are `Int`/`Nat` (Python ints are unbounded).
The abstract subclass hooks of `GameEnvironment` are parameters acting on the
game-specific portion of the state, per their documented contract.
-/

namespace Clem

/-- Python dict assignment `d[k] = v` on an ordered association list:
replaces the value in place if the key exists, else appends. -/
def dictInsert {α : Type} (l : List (String × α)) (k : String) (v : α) :
    List (String × α) :=
  match l with
  | [] => [(k, v)]
  | (k', v') :: rest => if k' = k then (k, v) :: rest else (k', v') :: dictInsert rest k v

/-- `Action` (environment.py): tagged record; `action_type` is `Option` so that a
missing `action_type` key (`action.get("action_type") is None`) is representable. -/
structure Action where
  action_type : Option String
deriving Repr, DecidableEq

/-- `GameState` (environment.py) base fields plus the game-specific portion `game`. -/
structure EnvState (σ : Type) where
  terminated : Bool
  success : Bool
  aborted : Bool
  moves : Nat
  warning : String
  game : σ
deriving Repr, DecidableEq

/-- The abstract subclass hooks of `GameEnvironment`. Per their documented
contract they read and update the game-specific state and report validity and
win/loss; the base fields are owned by `step`/`reset`. -/
structure EnvHooks (σ : Type) where
  update_state_through_action : σ → String → Action → σ
  check_won : σ → String → Bool × Bool
  is_action_valid_in_state : σ → String → Action → Bool × String

/-- The configuration options read by `GameEnvironment.__init__`. -/
structure EnvConfig where
  max_moves : Option Nat
  render_as : String
deriving Repr, DecidableEq

/-- `GameEnvironment._max_moves_reached`. -/
def max_moves_reached {σ : Type} (cfg : EnvConfig) (s : EnvState σ) : Bool :=
  match cfg.max_moves with
  | none => false
  | some m => decide (m ≤ s.moves)

/-- Warning set by `GameEnvironment._action_violates_format`. -/
def formatWarning : String := "Your response violated the format. Please try again."

/-- Warning set by `GameEnvironment._action_not_in_action_space`. -/
def actionSpaceWarning : String := "You cannot do that. Please try again."

/-- `GameEnvironment._is_action_valid`: raises (`Except.error`) on a missing
`action_type`; otherwise short-circuits format violation, then action space
membership (`self.action_spaces[player.name]` raises `KeyError` if the player
is unknown), then the state-specific hook; each failure sets `state["warning"]`.
Returns the validity flag together with the (possibly warning-updated) state. -/
def is_action_valid {σ : Type} (hooks : EnvHooks σ) (spaces : List (String × List String))
    (s : EnvState σ) (player : String) (a : Action) : Except String (Bool × EnvState σ) :=
  match a.action_type with
  | none => .error "ValueError: No action type in action"
  | some t =>
    if t = "violated_format" then
      .ok (false, { s with warning := formatWarning })
    else
      match spaces.lookup player with
      | none => .error "KeyError: action_spaces"
      | some space =>
        if t ∉ space then
          .ok (false, { s with warning := actionSpaceWarning })
        else
          match hooks.is_action_valid_in_state s.game player a with
          | (true, _) => .ok (true, s)
          | (false, w) => .ok (false, { s with warning := w })

/-- `GameEnvironment.reward`: 0 if the step aborted, else 1. -/
def reward {σ : Type} (s : EnvState σ) : Nat :=
  if s.aborted then 0 else 1

/-- `GameEnvironment.step`: clear the episode flags, increment `moves`, apply the
hard move cap (returning literal reward 0 before any validation or rendering),
otherwise validate; a valid action is applied through the update hook and
`check_won` re-evaluated, an invalid one sets `aborted`. `render_state` is then
dispatched on `render_as` and raises `ValueError` for an unknown value (the
rendered string itself is discarded by `step`, and `update_observations` only
fills the observation side channel). Returns `(reward, terminated, aborted, state)`;
the source returns `info()`, which is a projection of the state. -/
def step {σ : Type} (cfg : EnvConfig) (hooks : EnvHooks σ)
    (spaces : List (String × List String)) (s : EnvState σ) (player : String) (a : Action) :
    Except String (Nat × Bool × Bool × EnvState σ) :=
  let s1 : EnvState σ :=
    { s with aborted := false, terminated := false, success := false, moves := s.moves + 1 }
  if max_moves_reached cfg s1 then
    let s2 := { s1 with terminated := true, aborted := true }
    .ok (0, true, true, s2)
  else
    match is_action_valid hooks spaces s1 player a with
    | .error e => .error e
    | .ok (valid, s2) =>
      let s3 :=
        if valid then
          let g := hooks.update_state_through_action s2.game player a
          let won := hooks.check_won g player
          { s2 with game := g, terminated := won.1, success := won.2 }
        else
          { s2 with aborted := true }
      if cfg.render_as = "image" ∨ cfg.render_as = "string" ∨ cfg.render_as = "human-readable" then
        .ok (reward s3, s3.terminated, s3.aborted, s3)
      else
        .error "ValueError: Invalid render_as value"

/-- Episode classification: still running (neither terminated nor aborted). -/
def stillRunning {σ : Type} (s : EnvState σ) : Bool :=
  !s.terminated && !s.aborted

/-- Episode classification: terminated with success. An aborted episode is
classified as aborted, matching `lose = not success and not aborted`. -/
def terminatedSuccess {σ : Type} (s : EnvState σ) : Bool :=
  s.terminated && s.success && !s.aborted

/-- Episode classification: terminated without success (and not aborted). -/
def terminatedFailure {σ : Type} (s : EnvState σ) : Bool :=
  s.terminated && !s.success && !s.aborted

/-- Episode classification: aborted. -/
def abortedClass {σ : Type} (s : EnvState σ) : Bool :=
  s.aborted

/-- `EnvGameMaster._end_game` metric derivation: `aborted = int(aborted)`,
`success = int(success)`, `lose = int(not success and not aborted)`. -/
def end_game_metrics {σ : Type} (s : EnvState σ) : Nat × Nat × Nat :=
  let ab : Nat := if s.aborted then 1 else 0
  let su : Nat := if s.success then 1 else 0
  let lo : Nat := if !s.success && !s.aborted then 1 else 0
  (ab, su, lo)

/-- The orchestrator state relevant to turn and round sequencing
(`EnvGameMaster`): the roster (player names in insertion order), the current
player index, and the round counter. -/
structure MasterState where
  players : List String
  current_player_idx : Nat
  current_round : Nat
deriving Repr, DecidableEq

/-- `EnvGameMaster._should_pass_turn`: pass unless aborted. -/
def should_pass_turn (aborted : Bool) : Bool := !aborted

/-- `EnvGameMaster._start_next_round`: true when the current player index is 0. -/
def start_next_round (m : MasterState) : Bool := m.current_player_idx == 0

/-- `EnvGameMaster._next_player`: advance the index round-robin. -/
def next_player_idx (m : MasterState) : Nat :=
  (m.current_player_idx + 1) % m.players.length

/-- The tail of `EnvGameMaster.step` after the environment step returned
`(terminated, aborted)`: on termination return immediately (end-game path);
otherwise pass the turn unless aborted, then check `_start_next_round` and
increment the round counter at a round boundary. The hooks
(`_on_after_round`, `_on_before_round`) are no-ops in the source. -/
def master_advance (m : MasterState) (terminated aborted : Bool) : MasterState :=
  if terminated then m
  else
    let m1 :=
      if should_pass_turn aborted then
        { m with current_player_idx := next_player_idx m }
      else m
    if start_next_round m1 then { m1 with current_round := m1.current_round + 1 } else m1

/-- One orchestrator step with a non-terminating, non-aborted environment result. -/
def no_abort_step (m : MasterState) : MasterState := master_advance m false false

/-- `Object` (grid_environment.py): a dataclass, so equality (used by
`obj in list` / `list.remove`) compares the declared fields; the class tag
distinguishes plain objects from `PlayerObject` instances. -/
structure Obj where
  position : Int × Int
  name : String
  symbol : String
  pretty_symbol : String
  is_player_object : Bool
deriving Repr, DecidableEq

/-- `PlayerObject.__init__` (inclusive_grid_environment.py). -/
def playerObject (playerName : String) (pos : Int × Int) : Obj :=
  { position := pos, name := "Player_" ++ playerName, symbol := "P",
    pretty_symbol := "👤", is_player_object := true }

/-- `GridCell` (grid_environment.py). -/
structure GridCell where
  objects : List Obj
  position : Int × Int
deriving Repr, DecidableEq

/-- `Grid`: 2D ordered array of cells, indexed grid[row][col]. -/
abbrev Grid := List (List GridCell)

/-- The grid built by `GridEnvironment.reset`. -/
def emptyGrid (height width : Nat) : Grid :=
  (List.range height).map (fun y =>
    (List.range width).map (fun x =>
      { objects := [], position := ((y : Int), (x : Int)) }))

/-- Read the cell at row `y`, column `x` (a total projection used to state
properties; in-bounds indices always hit a real cell). -/
def grid_get (g : Grid) (y x : Nat) : GridCell :=
  (g.getD y []).getD x { objects := [], position := (0, 0) }

/-- Replace the cell at row `y`, column `x`. -/
def grid_set (g : Grid) (y x : Nat) (c : GridCell) : Grid :=
  g.set y ((g.getD y []).set x c)

/-- Python list indexing `l[i]`: direct for `0 ≤ i < n`, wrapped once for
`-n ≤ i < 0`, `IndexError` otherwise. -/
def pyIdx (n : Nat) (i : Int) : Option Nat :=
  if 0 ≤ i ∧ i < (n : Int) then some i.toNat
  else if -(n : Int) ≤ i ∧ i < 0 then some (i + n).toNat
  else none

/-- The bounds check of `GridEnvironment._add_object` / `_get_objects_at`:
`0 <= x < width and 0 <= y < height` for position `(y, x)`. -/
def in_bounds (height width : Nat) (p : Int × Int) : Bool :=
  decide (0 ≤ p.2 ∧ p.2 < (width : Int) ∧ 0 ≤ p.1 ∧ p.1 < (height : Int))

/-- `GridEnvironment._add_object`: append to the target cell's stack;
out of bounds raises `ValueError`. -/
def add_object (height width : Nat) (g : Grid) (o : Obj) : Except String Grid :=
  if in_bounds height width o.position then
    .ok (grid_set g o.position.1.toNat o.position.2.toNat
      (let c := grid_get g o.position.1.toNat o.position.2.toNat
       { c with objects := c.objects ++ [o] }))
  else
    .error "ValueError: Position is out of bounds"

/-- `GridEnvironment._remove_object`: index the grid at the object's recorded
position (plain Python indexing, so a bad position raises `IndexError`), then
remove the first equal element if present (no-op when absent). -/
def remove_object (g : Grid) (o : Obj) : Except String Grid :=
  match pyIdx g.length o.position.1 with
  | none => .error "IndexError: grid row"
  | some y =>
    let row := g.getD y []
    match pyIdx row.length o.position.2 with
    | none => .error "IndexError: grid column"
    | some x =>
      let cell := row.getD x { objects := [], position := (0, 0) }
      let cell' :=
        if o ∈ cell.objects then { cell with objects := cell.objects.erase o } else cell
      .ok (g.set y (row.set x cell'))

/-- `GridEnvironment._get_objects_at`: the stack at an in-bounds position,
empty out of bounds. -/
def get_objects_at (height width : Nat) (g : Grid) (p : Int × Int) : List Obj :=
  if in_bounds height width p then (grid_get g p.1.toNat p.2.toNat).objects else []

/-- Visibility / exploration mask: 2D bool array, row-major like the grid. -/
abbrev Mask := List (List Bool)

/-- The game-specific portion of `InclusiveGridState`: the grid plus the
optional player-position and explored-history dicts. `Option` values in the
position dict mirror the `pos is not None` check in `_visible_grid`. -/
structure IncGame where
  grid : Grid
  player_positions : Option (List (String × Option (Int × Int)))
  explored : Option (List (String × Mask))
deriving Repr, DecidableEq

/-- Configuration read by `GridEnvironment`/`InclusiveGridEnvironment`. -/
structure IncConfig where
  height : Nat
  width : Nat
  limited_visibility : Bool
  show_explored : Bool
  players_start : Option (List (Int × Int))
deriving Repr, DecidableEq

/-- `InclusiveGridEnvironment._get_player_position`:
`self.state["_player_positions"][player_name]` — `TypeError` if the dict is
`None`, `KeyError` if the player has no entry, else the stored value
(which may itself be `None`). -/
def get_player_position (game : IncGame) (name : String) : Except String (Option (Int × Int)) :=
  match game.player_positions with
  | none => .error "TypeError: _player_positions is None"
  | some d =>
    match d.lookup name with
    | none => .error "KeyError: _player_positions"
    | some v => .ok v

/-- `InclusiveGridEnvironment._get_player_object`:
`self._get_objects_at(self._get_player_position(player_name))[-1]` —
unpacking a `None` position raises `TypeError`, `[-1]` on an empty stack
raises `IndexError`. -/
def get_player_object (cfg : IncConfig) (game : IncGame) (name : String) : Except String Obj :=
  match get_player_position game name with
  | .error e => .error e
  | .ok none => .error "TypeError: position is None"
  | .ok (some p) =>
    match (get_objects_at cfg.height cfg.width game.grid p).getLast? with
    | none => .error "IndexError: empty cell"
    | some o => .ok o

/-- Set entry `(i, j)` of a mask to `True` (no-op beyond the mask's extent,
like `list.set`); the source always writes in-bounds indices. -/
def set_mask (m : Mask) (i j : Nat) : Mask :=
  m.set i ((m.getD i []).set j true)

/-- Python `range(lo, hi)` over ints. -/
def intRange (lo hi : Int) : List Int :=
  (List.range (hi - lo).toNat).map (fun k : Nat => lo + (k : Int))

/-- The loop body of `InclusiveGridEnvironment._mark_explored`: iterate the
3×3 neighborhood of `pos` and set every in-bounds cell to explored. -/
def mark_explored_mask (height width : Nat) (m : Mask) (pos : Int × Int) : Mask :=
  (intRange (pos.1 - 1) (pos.1 + 2)).foldl
    (fun acc i =>
      (intRange (pos.2 - 1) (pos.2 + 2)).foldl
        (fun acc2 j =>
          if 0 ≤ i ∧ i < (height : Int) ∧ 0 ≤ j ∧ j < (width : Int) then
            set_mask acc2 i.toNat j.toNat
          else acc2)
        acc)
    m

/-- `InclusiveGridEnvironment._mark_explored` on the state: mutates
`state["_explored"][player_name]` (raising if the dict or entry is missing). -/
def mark_explored (cfg : IncConfig) (game : IncGame) (name : String) (pos : Int × Int) :
    Except String IncGame :=
  match game.explored with
  | none => .error "TypeError: _explored is None"
  | some d =>
    match d.lookup name with
    | none => .error "KeyError: _explored"
    | some m =>
      .ok { game with explored := some (dictInsert d name (mark_explored_mask cfg.height cfg.width m pos)) }

/-- The destination written into `player_object.position` by `_move_player`:
one step from the recorded position `(y, x)` in the four directions, the
object's own position unchanged for an unknown direction (no `else` branch in
the source). -/
def move_player_dest (y x : Int) (obj : Obj) (direction : String) : Int × Int :=
  if direction = "n" then (y - 1, x)
  else if direction = "s" then (y + 1, x)
  else if direction = "e" then (y, x + 1)
  else if direction = "w" then (y, x - 1)
  else obj.position

/-- `InclusiveGridEnvironment._move_player`: look up the recorded position,
take the topmost object there, remove it from its cell, mutate its position
per the direction (unchanged for an unknown direction), add it to the new
cell, mark exploration if enabled, and update the position dict. -/
def move_player (cfg : IncConfig) (game : IncGame) (name direction : String) :
    Except String IncGame :=
  match get_player_position game name with
  | .error e => .error e
  | .ok none => .error "TypeError: position is None"
  | .ok (some (y, x)) =>
    match get_player_object cfg game name with
    | .error e => .error e
    | .ok obj =>
      match remove_object game.grid obj with
      | .error e => .error e
      | .ok g1 =>
        match add_object cfg.height cfg.width g1
            { obj with position := move_player_dest y x obj direction } with
        | .error e => .error e
        | .ok g2 =>
          match (if cfg.show_explored then
                   mark_explored cfg { game with grid := g2 } name
                     (move_player_dest y x obj direction)
                 else .ok { game with grid := g2 }) with
          | .error e => .error e
          | .ok game2 =>
            match game2.player_positions with
            | none => .error "TypeError: _player_positions is None"
            | some d =>
              .ok { game2 with
                    player_positions :=
                      some (dictInsert d name (some (move_player_dest y x obj direction))) }

/-- The all-true mask `[[True for _ in range(width)] for _ in range(height)]`. -/
def full_mask (height width : Nat) : Mask :=
  List.replicate height (List.replicate width true)

/-- The nested loops of the local-window branch of `_visible_grid`: set every
cell with row in `rows` and column in `cols` to visible. -/
def mark_cells (rows cols : List Int) (m : Mask) : Mask :=
  rows.foldl
    (fun acc i => cols.foldl (fun acc2 j => set_mask acc2 i.toNat j.toNat) acc)
    m

/-- `InclusiveGridEnvironment._visible_grid`: full visibility when
`limited_visibility` is off; the player's explored map
(`self.state["_explored"].get(player_name)`, possibly `None`) when
`show_explored` is on; otherwise the live clipped 3×3 window around the
player's recorded position, falling back to the full grid when the recorded
position is `None`. -/
def visible_grid (cfg : IncConfig) (game : IncGame) (name : String) :
    Except String (Option Mask) :=
  if !cfg.limited_visibility then
    .ok (some (full_mask cfg.height cfg.width))
  else if cfg.show_explored then
    match game.explored with
    | none => .error "AttributeError: _explored is None"
    | some d => .ok (d.lookup name)
  else
    match get_player_position game name with
    | .error e => .error e
    | .ok (some (y, x)) =>
      .ok (some (mark_cells
        (intRange (max 0 (y - 1)) (min (cfg.height : Int) (y + 2)))
        (intRange (max 0 (x - 1)) (min (cfg.width : Int) (x + 2)))
        (List.replicate cfg.height (List.replicate cfg.width false))))
    | .ok none => .ok (some (full_mask cfg.height cfg.width))

/-- The player-placement loop of `InclusiveGridEnvironment.reset`:
`players_start[i]` raises `TypeError` when the config entry is missing and
`IndexError` when too short; each player object is added to the grid
(`_add_object` raises out of bounds) and its position recorded. -/
def place_players (cfg : IncConfig) (players : List String) (i : Nat) (g : Grid)
    (d : List (String × Option (Int × Int))) :
    Except String (Grid × List (String × Option (Int × Int))) :=
  match players with
  | [] => .ok (g, d)
  | p :: rest =>
    match cfg.players_start with
    | none => .error "TypeError: players_start is None"
    | some starts =>
      match starts.get? i with
      | none => .error "IndexError: players_start"
      | some start =>
        match add_object cfg.height cfg.width g (playerObject p start) with
        | .error e => .error e
        | .ok g1 => place_players cfg rest (i + 1) g1 (dictInsert d p (some start))

/-- The explored-map initialization of `InclusiveGridEnvironment.reset`:
an all-false map per player, then `_mark_explored` around the player's
just-recorded start position. -/
def init_explored (cfg : IncConfig) (players : List String)
    (d : List (String × Option (Int × Int))) (e : List (String × Mask)) :
    Except String (List (String × Mask)) :=
  match players with
  | [] => .ok e
  | p :: rest =>
    let e1 := dictInsert e p (List.replicate cfg.height (List.replicate cfg.width false))
    match d.lookup p with
    | none => .error "KeyError: _player_positions"
    | some none => .error "TypeError: position is None"
    | some (some pos) =>
      match e1.lookup p with
      | none => .error "KeyError: _explored"
      | some m => init_explored cfg rest d (dictInsert e1 p (mark_explored_mask cfg.height cfg.width m pos))

/-- The `reset` chain `InclusiveGridEnvironment.reset` →
`GridEnvironment.reset` → `GameEnvironment.reset`: the base fields are
reinitialized, the grid rebuilt empty, the players placed at their configured
start positions, and (only when `show_explored` is set) the explored maps
created; without `show_explored` the `_explored` entry is absent (`none`). -/
def reset_env (cfg : IncConfig) (players : List String) : Except String (EnvState IncGame) :=
  match place_players cfg players 0 (emptyGrid cfg.height cfg.width) [] with
  | .error e => .error e
  | .ok (g, d) =>
    match (if cfg.show_explored then
             match init_explored cfg players d [] with
             | .error e => .error e
             | .ok e => .ok (some e)
           else .ok none : Except String (Option (List (String × Mask)))) with
    | .error e => .error e
    | .ok expl =>
      .ok { terminated := false, success := false, aborted := false, moves := 0, warning := "",
            game := { grid := g, player_positions := some d, explored := expl } }

/-- Typed values of the dict-shaped `InclusiveGridState`, so that `info`'s
key filtering can be stated over the actual key strings. -/
inductive SVal where
  | b (v : Bool)
  | n (v : Nat)
  | s (v : String)
  | grid (g : Grid)
  | posMap (m : Option (List (String × Option (Int × Int))))
  | expMap (m : Option (List (String × Mask)))
deriving Repr, DecidableEq

/-- The key/value items of the state dict of an inclusive grid environment
(base fields of `GameState` plus `_grid`, `_player_positions`, `_explored`;
an absent private key is represented by a `none` value, which `info` filters
out by key either way). -/
def state_items (s : EnvState IncGame) : List (String × SVal) :=
  [("terminated", .b s.terminated), ("success", .b s.success), ("aborted", .b s.aborted),
   ("moves", .n s.moves), ("warning", .s s.warning),
   ("_grid", .grid s.game.grid), ("_player_positions", .posMap s.game.player_positions),
   ("_explored", .expMap s.game.explored)]

/-- A mask is a rectangular `h × w` boolean array. -/
def maskShape (h w : Nat) (m : Mask) : Prop :=
  m.length = h ∧ ∀ i, i < h → (m.getD i []).length = w

/-- A grid is a rectangular `h × w` array of cells. -/
def gridShape (h w : Nat) (g : Grid) : Prop :=
  g.length = h ∧ ∀ r ∈ g, r.length = w

/-- Python `str(key).startswith("_")`: the key's first character is `_`. -/
def is_private_key (k : String) : Bool :=
  match k.data with
  | [] => false
  | c :: _ => c = '_'

/-- `GameEnvironment.info`: all state items whose key does not start with `_`. -/
def info (s : EnvState IncGame) : List (String × SVal) :=
  (state_items s).filter (fun kv => !is_private_key kv.1)

/-- Hooks of a trivial game over unit state: every action legal, never decided. -/
def unitHooks : EnvHooks Unit where
  update_state_through_action := fun g _ _ => g
  check_won := fun _ _ => (false, false)
  is_action_valid_in_state := fun _ _ _ => (true, "")

/-- Hooks of a trivial game whose state check always rejects with a warning. -/
def failHooks : EnvHooks Unit where
  update_state_through_action := fun g _ _ => g
  check_won := fun _ _ => (false, false)
  is_action_valid_in_state := fun _ _ _ => (false, "The cell (2, 2) is outside the grid! Please try again.")

/-- A freshly reset base environment state over unit game state. -/
def unitState : EnvState Unit :=
  { terminated := false, success := false, aborted := false, moves := 0, warning := "", game := () }

/-- A two-player orchestrator state at the top of the roster. -/
def exMaster : MasterState :=
  { players := ["Player 1", "Player 2"], current_player_idx := 0, current_round := 0 }

/-- A 3×3 local-window configuration (`limited_visibility` on, `show_explored` off). -/
def c5cfg : IncConfig :=
  { height := 3, width := 3, limited_visibility := true, show_explored := false, players_start := none }

/-- A game with one player recorded at `(0, 0)` on an empty 3×3 grid. -/
def c5game : IncGame :=
  { grid := emptyGrid 3 3, player_positions := some [("Player 1", some (0, 0))], explored := none }

/-- The local-window mask around `(0, 0)` in a 3×3 grid. -/
def c5mask : Mask := [[true, true, false], [true, true, false], [false, false, false]]

/-- A 3×3 exploration-memory configuration. -/
def c6cfg : IncConfig :=
  { height := 3, width := 3, limited_visibility := true, show_explored := true, players_start := none }

/-- A 3×3 grid with one player object at `(0, 0)`. -/
def c6grid : Grid :=
  [[{ objects := [playerObject "Player 1" (0, 0)], position := (0, 0) },
    { objects := [], position := (0, 1) }, { objects := [], position := (0, 2) }],
   [{ objects := [], position := (1, 0) }, { objects := [], position := (1, 1) },
    { objects := [], position := (1, 2) }],
   [{ objects := [], position := (2, 0) }, { objects := [], position := (2, 1) },
    { objects := [], position := (2, 2) }]]

/-- The explored map after reset-placement at `(0, 0)` in a 3×3 grid. -/
def c6explored : Mask := [[true, true, false], [true, true, false], [false, false, false]]

/-- A 3×3 exploration-memory game with one player at `(0, 0)`. -/
def c6game : IncGame :=
  { grid := c6grid, player_positions := some [("Player 1", some (0, 0))],
    explored := some [("Player 1", c6explored)] }

/-- The game state after the player moves south from `(0, 0)`. -/
def c6result : IncGame :=
  match move_player c6cfg c6game "Player 1" "s" with
  | .ok g => g
  | .error _ => { grid := [], player_positions := none, explored := none }

/-- A 2×2 local-window configuration. -/
def c7cfg : IncConfig :=
  { height := 2, width := 2, limited_visibility := true, show_explored := false, players_start := none }

/-- A game whose player-position dict has no entry for any player. -/
def c7game : IncGame :=
  { grid := emptyGrid 2 2, player_positions := some [], explored := none }

/-- A game whose player-position dict maps the player to a null position. -/
def c7bgame : IncGame :=
  { grid := emptyGrid 2 2, player_positions := some [("Player 1", none)], explored := none }

/-- The base-state outcome of a validly stepped trivial game. -/
def c4state : EnvState Unit :=
  { terminated := false, success := false, aborted := false, moves := 1, warning := "", game := () }

/-- The state produced by the failing validation of `failHooks` on the first move. -/
def c8sv : EnvState Unit :=
  { terminated := false, success := false, aborted := false, moves := 1,
    warning := "The cell (2, 2) is outside the grid! Please try again.", game := () }

/-- A 2×2 configuration without exploration memory. -/
def c9cfg : IncConfig :=
  { height := 2, width := 2, limited_visibility := false, show_explored := false, players_start := none }

/-- A 2×2 grid with one player object at `(0, 0)`. -/
def c9grid : Grid :=
  [[{ objects := [playerObject "Player 1" (0, 0)], position := (0, 0) },
    { objects := [], position := (0, 1) }],
   [{ objects := [], position := (1, 0) }, { objects := [], position := (1, 1) }]]

/-- A 2×2 game with one player at `(0, 0)`. -/
def c9game : IncGame :=
  { grid := c9grid, player_positions := some [("Player 1", some (0, 0))], explored := none }

/-- The game state after the player moves south from `(0, 0)` in the 2×2 game. -/
def c9result : IncGame :=
  match move_player c9cfg c9game "Player 1" "s" with
  | .ok g => g
  | .error _ => { grid := [], player_positions := none, explored := none }

/-- A 2×2 configuration with no players configured. -/
def c10cfg : IncConfig :=
  { height := 2, width := 2, limited_visibility := false, show_explored := false, players_start := none }

theorem getD_set_self {α : Type} (l : List α) (i : Nat) (v d : α) (h : i < l.length) :
    (l.set i v).getD i d = v := by
  simp [List.getD_eq_getElem?_getD, List.getElem?_set_self, h]

theorem getD_set_ne {α : Type} (l : List α) (i j : Nat) (v d : α) (h : i ≠ j) :
    (l.set i v).getD j d = l.getD j d := by
  simp [List.getD_eq_getElem?_getD, List.getElem?_set_ne, h]

theorem getD_replicate {α : Type} (n : Nat) (a d : α) (i : Nat) (h : i < n) :
    (List.replicate n a).getD i d = a := by
  simp [List.getD_eq_getElem?_getD, List.getElem?_replicate, h]

theorem getD_mem {α : Type} (l : List α) (i : Nat) (d : α) (h : i < l.length) :
    l.getD i d ∈ l := by
  rw [List.getD_eq_getElem?_getD, List.getElem?_eq_getElem h]
  exact List.getElem_mem h

theorem lookup_dictInsert_self {α : Type} (l : List (String × α)) (k : String) (v : α) :
    (dictInsert l k v).lookup k = some v := by
  induction l with
  | nil => simp [dictInsert, List.lookup]
  | cons kv rest ih =>
    obtain ⟨k', v'⟩ := kv
    by_cases h : k' = k
    · subst h
      simp [dictInsert, List.lookup]
    · have hne : (k == k') = false := beq_eq_false_iff_ne.mpr (Ne.symm h)
      simp [dictInsert, h, List.lookup, hne, ih]

/-- The state returned by `_is_action_valid` differs from its input only in the
`warning` field. -/
theorem is_action_valid_frame {σ : Type} (hooks : EnvHooks σ)
    (spaces : List (String × List String)) (s : EnvState σ) (player : String) (a : Action)
    (v : Bool) (s2 : EnvState σ)
    (h : is_action_valid hooks spaces s player a = .ok (v, s2)) :
    s2.terminated = s.terminated ∧ s2.success = s.success ∧ s2.aborted = s.aborted ∧
    s2.moves = s.moves ∧ s2.game = s.game := by
  unfold is_action_valid at h
  split at h
  · exact absurd h (by simp)
  · split at h
    · simp only [Except.ok.injEq, Prod.mk.injEq] at h
      obtain ⟨-, rfl⟩ := h
      exact ⟨rfl, rfl, rfl, rfl, rfl⟩
    · split at h
      · exact absurd h (by simp)
      · split at h
        · simp only [Except.ok.injEq, Prod.mk.injEq] at h
          obtain ⟨-, rfl⟩ := h
          exact ⟨rfl, rfl, rfl, rfl, rfl⟩
        · split at h
          · simp only [Except.ok.injEq, Prod.mk.injEq] at h
            obtain ⟨-, rfl⟩ := h
            exact ⟨rfl, rfl, rfl, rfl, rfl⟩
          · simp only [Except.ok.injEq, Prod.mk.injEq] at h
            obtain ⟨-, rfl⟩ := h
            exact ⟨rfl, rfl, rfl, rfl, rfl⟩

/-- Claim C1: with `max_moves = M`, the `M`-th call to `step` since reset (the
call that raises `moves` to `M`; every call increments `moves` by exactly one)
returns reward 0, `terminated = true` and `aborted = true`, for every submitted
action — including one with no `action_type` at all — and for arbitrary
validation/update hooks: the cutoff fires before any validation, the
game-specific state is returned unchanged, and the literal reward 0 is
returned without consulting `reward()`. -/
theorem C1_move_cap {σ : Type} (cfg : EnvConfig) (hooks : EnvHooks σ)
    (spaces : List (String × List String)) (s : EnvState σ) (player : String) (a : Action)
    (M : Nat) (hM : cfg.max_moves = some M) (hmoves : M ≤ s.moves + 1) :
    step cfg hooks spaces s player a =
      .ok (0, true, true,
        { s with aborted := true, terminated := true, success := false, moves := s.moves + 1 }) := by
  unfold step max_moves_reached
  rw [hM]
  simp [hmoves]

/-- Claim C1 witness: a one-move environment cuts off the very first step, even
for an action with a missing `action_type` (which validation would reject as a
fatal error had it been reached). -/
theorem C1_move_cap_witness :
    step { max_moves := some 1, render_as := "string" } unitHooks [] unitState "Player 1"
        { action_type := none } =
      .ok (0, true, true,
        { unitState with aborted := true, terminated := true, success := false, moves := 1 }) :=
  C1_move_cap _ unitHooks [] unitState "Player 1" { action_type := none } 1 rfl (by decide)

/-- Claim C2: below the move cap, validation short-circuits in the order
format violation, then action-space membership, then state-specific
legality. In particular an action tagged `violated_format` is always rejected
with the format warning and `aborted = true` — for every action space,
including one that contains the tag `violated_format` itself — an action whose
tag is missing from the player's action space is rejected with the
action-space warning regardless of the state hook, and otherwise a failing
state hook rejects with its own warning. -/
theorem C2_validation_order {σ : Type} (cfg : EnvConfig) (hooks : EnvHooks σ)
    (spaces : List (String × List String)) (s : EnvState σ) (player : String) (a : Action)
    (hcap : ∀ M, cfg.max_moves = some M → s.moves + 1 < M)
    (hrender : cfg.render_as = "image" ∨ cfg.render_as = "string" ∨
      cfg.render_as = "human-readable") :
    (a.action_type = some "violated_format" →
      step cfg hooks spaces s player a =
        .ok (0, false, true,
          { s with aborted := true, terminated := false, success := false,
                   moves := s.moves + 1, warning := formatWarning })) ∧
    (∀ t space, a.action_type = some t → t ≠ "violated_format" →
      spaces.lookup player = some space → t ∉ space →
      step cfg hooks spaces s player a =
        .ok (0, false, true,
          { s with aborted := true, terminated := false, success := false,
                   moves := s.moves + 1, warning := actionSpaceWarning })) ∧
    (∀ t space w, a.action_type = some t → t ≠ "violated_format" →
      spaces.lookup player = some space → t ∈ space →
      hooks.is_action_valid_in_state s.game player a = (false, w) →
      step cfg hooks spaces s player a =
        .ok (0, false, true,
          { s with aborted := true, terminated := false, success := false,
                   moves := s.moves + 1, warning := w })) := by
  have hmr : max_moves_reached cfg
      { s with aborted := false, terminated := false, success := false,
               moves := s.moves + 1 } = false := by
    unfold max_moves_reached
    cases hc : cfg.max_moves with
    | none => rfl
    | some M =>
      have := hcap M hc
      simp
      omega
  refine ⟨?_, ?_, ?_⟩
  · intro hfmt
    simp only [step, hmr, Bool.false_eq_true, if_false, is_action_valid, hfmt]
    rcases hrender with h | h | h <;> simp [h, reward]
  · intro t space ht hnf hsp hmem
    simp only [step, hmr, Bool.false_eq_true, if_false, is_action_valid, ht, hnf, hsp]
    rcases hrender with h | h | h <;> simp [h, reward, hmem]
  · intro t space w ht hnf hsp hmem hhook
    simp only [step, hmr, Bool.false_eq_true, if_false, is_action_valid, ht, hnf, hsp]
    rcases hrender with h | h | h <;> simp [h, reward, hmem, hhook]

/-- Claim C2 witness: a `violated_format` action is rejected with the format
warning even though `"violated_format"` is literally a member of the player's
action space. -/
theorem C2_validation_order_witness :
    step { max_moves := some 5, render_as := "string" } unitHooks
        [("Player 1", ["violated_format"])] unitState "Player 1"
        { action_type := some "violated_format" } =
      .ok (0, false, true,
        { unitState with aborted := true, terminated := false, success := false,
                         moves := 1, warning := formatWarning }) :=
  (C2_validation_order _ unitHooks [("Player 1", ["violated_format"])] unitState "Player 1"
    { action_type := some "violated_format" }
    (by intro M hM; cases hM; decide)
    (Or.inr (Or.inl rfl))).1 rfl

/-- The four episode classifications are a disjoint cover of the boolean state
space (aborted taking precedence over the terminated classes). -/
theorem class_sum {σ : Type} (s : EnvState σ) :
    (if stillRunning s then 1 else 0) + (if terminatedSuccess s then 1 else 0) +
      (if terminatedFailure s then 1 else 0) + (if abortedClass s then 1 else 0) = 1 := by
  obtain ⟨t, su, ab, mv, w, g⟩ := s
  cases t <;> cases su <;> cases ab <;> rfl

/-- No step result is simultaneously aborted and successful: the cutoff and
invalid paths clear `success`, and the valid path clears `aborted`. -/
theorem step_aborted_not_success {σ : Type} (cfg : EnvConfig) (hooks : EnvHooks σ)
    (spaces : List (String × List String)) (s : EnvState σ) (player : String) (a : Action)
    (r : Nat) (t ab : Bool) (s' : EnvState σ)
    (h : step cfg hooks spaces s player a = .ok (r, t, ab, s')) :
    s'.aborted = true → s'.success = false := by
  simp only [step] at h
  split at h
  · simp only [Except.ok.injEq, Prod.mk.injEq] at h
    obtain ⟨-, -, -, rfl⟩ := h
    intro _
    rfl
  · split at h
    · exact absurd h (by simp)
    · rename_i valid s2 heq
      split at h
      · simp only [Except.ok.injEq, Prod.mk.injEq] at h
        obtain ⟨-, -, -, rfl⟩ := h
        have hframe := is_action_valid_frame hooks spaces _ player a valid s2 heq
        cases valid with
        | true =>
          intro habs
          have : s2.aborted = false := by simpa using hframe.2.2.1
          simp [this] at habs
        | false =>
          intro _
          have : s2.success = false := by simpa using hframe.2.1
          simpa using this
      · exact absurd h (by simp)

/-- Claim C4: after every step, exactly one of the four classifications
still-running / terminated-success / terminated-failure / aborted holds, and
the three end-of-game metrics `aborted`, `success`, `lose` derived by
`_end_game` from the resulting state are mutually exclusive with exactly one
equal to 1 (this holds for every post-step state, in particular the
terminated ones that `_end_game` actually scores). -/
theorem C4_classification {σ : Type} (cfg : EnvConfig) (hooks : EnvHooks σ)
    (spaces : List (String × List String)) (s : EnvState σ) (player : String) (a : Action)
    (r : Nat) (t ab : Bool) (s' : EnvState σ)
    (h : step cfg hooks spaces s player a = .ok (r, t, ab, s')) :
    ((if stillRunning s' then 1 else 0) + (if terminatedSuccess s' then 1 else 0) +
      (if terminatedFailure s' then 1 else 0) + (if abortedClass s' then 1 else 0) = 1) ∧
    (end_game_metrics s').1 + (end_game_metrics s').2.1 + (end_game_metrics s').2.2 = 1 := by
  have hkey := step_aborted_not_success cfg hooks spaces s player a r t ab s' h
  refine ⟨class_sum s', ?_⟩
  unfold end_game_metrics
  cases hab : s'.aborted with
  | true => simp [hab, hkey hab]
  | false => cases hsu : s'.success <;> simp [hab, hsu]

/-- Claim C4 witness: a concrete valid step of the trivial game yields a state
in exactly one classification with exactly one end-game metric set. -/
theorem C4_classification_witness :
    ((if stillRunning c4state then 1 else 0) + (if terminatedSuccess c4state then 1 else 0) +
      (if terminatedFailure c4state then 1 else 0) + (if abortedClass c4state then 1 else 0) = 1) ∧
    (end_game_metrics c4state).1 + (end_game_metrics c4state).2.1 +
      (end_game_metrics c4state).2.2 = 1 :=
  C4_classification { max_moves := none, render_as := "string" } unitHooks
    [("Player 1", ["move"])] unitState "Player 1" { action_type := some "move" }
    1 false false c4state rfl

/-- Claim C8: a step with an invalid action below the move cap sets
`aborted = true` and a nonempty warning, leaves `terminated` and `success`
false, increments `moves` by exactly one, and leaves the game-specific state
(for the grid environments: the grid, player positions and explored maps)
unchanged. -/
theorem C8_invalid_action_frame {σ : Type} (cfg : EnvConfig) (hooks : EnvHooks σ)
    (spaces : List (String × List String)) (s : EnvState σ) (player : String) (a : Action)
    (sv : EnvState σ)
    (hcap : ∀ M, cfg.max_moves = some M → s.moves + 1 < M)
    (hrender : cfg.render_as = "image" ∨ cfg.render_as = "string" ∨
      cfg.render_as = "human-readable")
    (hinv : is_action_valid hooks spaces
      { s with aborted := false, terminated := false, success := false, moves := s.moves + 1 }
      player a = .ok (false, sv))
    (hw : ∀ g p b, (hooks.is_action_valid_in_state g p b).1 = false →
      (hooks.is_action_valid_in_state g p b).2 ≠ "") :
    step cfg hooks spaces s player a = .ok (0, false, true, { sv with aborted := true }) ∧
    sv.terminated = false ∧ sv.success = false ∧ sv.moves = s.moves + 1 ∧
    sv.game = s.game ∧ sv.warning ≠ "" := by
  have hmr : max_moves_reached cfg
      { s with aborted := false, terminated := false, success := false,
               moves := s.moves + 1 } = false := by
    unfold max_moves_reached
    cases hc : cfg.max_moves with
    | none => rfl
    | some M =>
      have := hcap M hc
      simp
      omega
  have hframe := is_action_valid_frame hooks spaces _ player a false sv hinv
  have hT : sv.terminated = false := by simpa using hframe.1
  have hS : sv.success = false := by simpa using hframe.2.1
  have hA : sv.aborted = false := by simpa using hframe.2.2.1
  have hM : sv.moves = s.moves + 1 := by simpa using hframe.2.2.2.1
  have hG : sv.game = s.game := by simpa using hframe.2.2.2.2
  have hWarn : sv.warning ≠ "" := by
    unfold is_action_valid at hinv
    split at hinv
    · exact absurd hinv (by simp)
    · split at hinv
      · simp only [Except.ok.injEq, Prod.mk.injEq] at hinv
        obtain ⟨-, rfl⟩ := hinv
        exact (by decide : formatWarning ≠ "")
      · split at hinv
        · exact absurd hinv (by simp)
        · split at hinv
          · simp only [Except.ok.injEq, Prod.mk.injEq] at hinv
            obtain ⟨-, rfl⟩ := hinv
            exact (by decide : actionSpaceWarning ≠ "")
          · split at hinv
            · exact absurd hinv (by simp)
            · rename_i w hhook
              simp only [Except.ok.injEq, Prod.mk.injEq] at hinv
              obtain ⟨-, rfl⟩ := hinv
              have h2 := hw _ player a (by rw [hhook])
              rw [hhook] at h2
              simpa using h2
  refine ⟨?_, hT, hS, hM, hG, hWarn⟩
  simp only [step, hmr, Bool.false_eq_true, if_false, hinv]
  rcases hrender with hr | hr | hr <;> simp [hr, reward, hT]

/-- Claim C8 witness: the failing state check of `failHooks` aborts the step
with its warning while the base flags stay cleared and the game state is
untouched. -/
theorem C8_invalid_action_frame_witness :
    step { max_moves := some 10, render_as := "string" } failHooks
        [("Player 1", ["move"])] unitState "Player 1" { action_type := some "move" } =
      .ok (0, false, true, { c8sv with aborted := true }) ∧
    c8sv.terminated = false ∧ c8sv.success = false ∧ c8sv.moves = unitState.moves + 1 ∧
    c8sv.game = unitState.game ∧ c8sv.warning ≠ "" :=
  C8_invalid_action_frame { max_moves := some 10, render_as := "string" } failHooks
    [("Player 1", ["move"])] unitState "Player 1" { action_type := some "move" } c8sv
    (by intro M hM; cases hM; decide)
    (Or.inr (Or.inl rfl))
    rfl
    (fun _ _ _ _ =>
      (by decide : ("The cell (2, 2) is outside the grid! Please try again." : String) ≠ ""))

/-- `info` never exposes a private (underscore-prefixed) key. -/
theorem info_no_private (s : EnvState IncGame) :
    ∀ kv ∈ info s, is_private_key kv.1 = false := by
  intro kv hkv
  have := (List.mem_filter.mp hkv).2
  simpa using this

/-- Claim C10: a successful `reset()` followed immediately by `info()` yields
exactly the five public base fields at their initial values — no key starting
with an underscore (in particular not `_grid`, `_player_positions` or
`_explored`), `terminated = success = aborted = false`, `moves = 0`,
`warning = ""`. -/
theorem C10_reset_info (cfg : IncConfig) (players : List String) (s' : EnvState IncGame)
    (h : reset_env cfg players = .ok s') :
    info s' = [("terminated", SVal.b false), ("success", SVal.b false),
               ("aborted", SVal.b false), ("moves", SVal.n 0), ("warning", SVal.s "")] ∧
    ∀ kv ∈ info s', is_private_key kv.1 = false := by
  refine ⟨?_, info_no_private s'⟩
  unfold reset_env at h
  split at h
  · exact absurd h (by simp)
  · split at h
    · exact absurd h (by simp)
    · simp only [Except.ok.injEq] at h
      subst h
      rfl

/-- Claim C10 witness: resetting a concrete empty-roster 2×2 grid environment
and taking `info` yields the initial public fields only. -/
theorem C10_reset_info_witness :
    info { terminated := false, success := false, aborted := false, moves := 0, warning := "",
           game := { grid := emptyGrid 2 2, player_positions := some [], explored := none } } =
      [("terminated", SVal.b false), ("success", SVal.b false),
       ("aborted", SVal.b false), ("moves", SVal.n 0), ("warning", SVal.s "")] ∧
    ∀ kv ∈ info { terminated := false, success := false, aborted := false, moves := 0,
                  warning := "",
                  game := { grid := emptyGrid 2 2, player_positions := some [],
                            explored := none } },
      is_private_key kv.1 = false :=
  C10_reset_info c10cfg []
    { terminated := false, success := false, aborted := false, moves := 0, warning := "",
      game := { grid := emptyGrid 2 2, player_positions := some [], explored := none } }
    rfl

/-- Claim C3 counterexample: with two players and the current player at roster
index 0, an aborted non-terminated step leaves the current player unchanged —
but still increments the round counter from 0 to 1, because
`_start_next_round` only checks `current_player_idx == 0` and is evaluated
whether or not the turn was passed. The claim states an aborted turn never
increments the round counter. -/
theorem C3_counterexample :
    (master_advance exMaster false true).current_player_idx = 0 ∧
    (master_advance exMaster false true).current_round = 1 := by
  exact ⟨rfl, rfl⟩

/-- Iterating no-abort steps from roster index 0 walks the index to `j`
without touching the round counter, as long as `j` stays inside the roster. -/
theorem no_abort_iterate (ps : List String) (r : Nat) (j : Nat) (hj : j < ps.length) :
    no_abort_step^[j] ⟨ps, 0, r⟩ = ⟨ps, j, r⟩ := by
  induction j with
  | zero => rfl
  | succ j ih =>
    rw [Function.iterate_succ_apply', ih (by omega)]
    show master_advance ⟨ps, j, r⟩ false false = ⟨ps, j + 1, r⟩
    unfold master_advance should_pass_turn start_next_round next_player_idx
    simp only [Bool.not_false, if_true, if_false]
    have hmod : (j + 1) % ps.length = j + 1 := Nat.mod_eq_of_lt hj
    simp [hmod]

/-- Claim C3 (amended): when the environment step did not terminate, an
aborted turn leaves the current player unchanged and a non-aborted turn
advances the index round-robin by `(i+1) mod N`; the round boundary fires
exactly when, after the turn-pass decision, the current player index is 0 —
so over `N` players with no aborts the round counter increments exactly once
per full cycle, while an aborted turn increments it exactly when the aborting
player sits at roster index 0. -/
theorem C3_round_robin (m : MasterState) (hN : 0 < m.players.length) :
    (master_advance m false true =
      { m with current_round :=
          m.current_round + if m.current_player_idx = 0 then 1 else 0 }) ∧
    (master_advance m false false =
      { m with current_player_idx := (m.current_player_idx + 1) % m.players.length,
               current_round := m.current_round +
                 if (m.current_player_idx + 1) % m.players.length = 0 then 1 else 0 }) ∧
    (m.current_player_idx = 0 →
      no_abort_step^[m.players.length] m = { m with current_round := m.current_round + 1 }) := by
  obtain ⟨ps, i, r⟩ := m
  refine ⟨?_, ?_, ?_⟩
  · unfold master_advance should_pass_turn start_next_round
    by_cases hi : i = 0 <;> simp [hi]
  · unfold master_advance should_pass_turn start_next_round next_player_idx
    by_cases hz : (i + 1) % ps.length = 0 <;> simp [hz]
  · intro h0
    simp only at h0
    subst h0
    simp only at hN
    obtain ⟨k, hk⟩ : ∃ k, ps.length = k + 1 := ⟨ps.length - 1, by omega⟩
    simp only [hk]
    rw [Function.iterate_succ_apply', no_abort_iterate ps r k (by omega)]
    show master_advance ⟨ps, k, r⟩ false false = ⟨ps, 0, r + 1⟩
    unfold master_advance should_pass_turn start_next_round next_player_idx
    simp only [Bool.not_false, if_true]
    have hmod : (k + 1) % ps.length = 0 := by
      rw [hk]
      exact Nat.mod_self (k + 1)
    simp [hmod]

/-- Claim C3 witness: a full no-abort cycle of the two-player roster returns
to index 0 and increments the round counter exactly once. -/
theorem C3_round_robin_witness :
    no_abort_step^[exMaster.players.length] exMaster =
      { exMaster with current_round := exMaster.current_round + 1 } :=
  (C3_round_robin exMaster (by decide)).2.2 rfl

theorem set_mask_shape (h w : Nat) (m : Mask) (i j : Nat) (hm : maskShape h w m) :
    maskShape h w (set_mask m i j) := by
  obtain ⟨h1, h2⟩ := hm
  refine ⟨by simp [set_mask, h1], ?_⟩
  intro a ha
  by_cases hai : a = i
  · subst hai
    have hlt : a < m.length := by omega
    rw [set_mask, getD_set_self _ _ _ _ hlt, List.length_set]
    exact h2 a ha
  · rw [set_mask, getD_set_ne _ _ _ _ _ fun hh => hai hh.symm]
    exact h2 a ha

theorem set_mask_getD (h w : Nat) (m : Mask) (hm : maskShape h w m) (i j a b : Nat)
    (hi : i < h) (hj : j < w) (ha : a < h) (hb : b < w) :
    ((set_mask m i j).getD a []).getD b false =
      if a = i ∧ b = j then true else (m.getD a []).getD b false := by
  obtain ⟨h1, h2⟩ := hm
  by_cases hai : a = i
  · subst hai
    have hlt : a < m.length := by omega
    rw [set_mask, getD_set_self _ _ _ _ hlt]
    by_cases hbj : b = j
    · subst hbj
      have hbl : b < (m.getD a []).length := by rw [h2 a ha]; exact hb
      rw [getD_set_self _ _ _ _ hbl]
      simp
    · rw [getD_set_ne _ _ _ _ _ fun hh => hbj hh.symm]
      simp [hbj]
  · rw [set_mask, getD_set_ne _ _ _ _ _ fun hh => hai hh.symm]
    simp [hai]

theorem foldl_preserves {α β : Type} (P : α → Prop) (f : α → β → α)
    (hf : ∀ x y, P x → P (f x y)) :
    ∀ (l : List β) (x : α), P x → P (l.foldl f x) := by
  intro l
  induction l with
  | nil => intro x hx; exact hx
  | cons y ys ih => intro x hx; exact ih (f x y) (hf x y hx)

theorem set_mask_mono (m : Mask) (i j a b : Nat)
    (ht : (m.getD a []).getD b false = true) :
    ((set_mask m i j).getD a []).getD b false = true := by
  by_cases hai : a = i
  · subst hai
    by_cases hlt : a < m.length
    · rw [set_mask, getD_set_self _ _ _ _ hlt]
      by_cases hbj : b = j
      · subst hbj
        by_cases hbl : b < (m.getD a []).length
        · rw [getD_set_self _ _ _ _ hbl]
        · rw [List.set_eq_of_length_le (by omega)]
          exact ht
      · rw [getD_set_ne _ _ _ _ _ fun hh => hbj hh.symm]
        exact ht
    · rw [set_mask, List.set_eq_of_length_le (by omega)]
      exact ht
  · rw [set_mask, getD_set_ne _ _ _ _ _ fun hh => hai hh.symm]
    exact ht

/-- `_mark_explored` never clears an explored cell. -/
theorem mark_explored_mask_mono (h w : Nat) (m : Mask) (pos : Int × Int) (a b : Nat)
    (ht : (m.getD a []).getD b false = true) :
    ((mark_explored_mask h w m pos).getD a []).getD b false = true := by
  unfold mark_explored_mask
  refine foldl_preserves (fun mm => (mm.getD a []).getD b false = true) _ ?_ _ m ht
  intro mm i hmm
  refine foldl_preserves (fun mm2 => (mm2.getD a []).getD b false = true) _ ?_ _ mm hmm
  intro mm2 j hmm2
  split
  · exact set_mask_mono mm2 _ _ a b hmm2
  · exact hmm2

theorem ite_or_split (P Q : Prop) [Decidable P] [Decidable Q] (V : Bool) :
    (if P then true else if Q then true else V) = (if P ∨ Q then true else V) := by
  by_cases hp : P
  · simp [hp]
  · by_cases hq : Q <;> simp [hp, hq]

theorem mem_intRange (lo hi k : Int) : k ∈ intRange lo hi ↔ lo ≤ k ∧ k < hi := by
  unfold intRange
  constructor
  · intro hk
    obtain ⟨n, hn, hkeq⟩ := List.mem_map.mp hk
    rw [List.mem_range] at hn
    subst hkeq
    omega
  · rintro ⟨hle, hlt⟩
    refine List.mem_map.mpr ⟨(k - lo).toNat, ?_, ?_⟩
    · rw [List.mem_range]
      omega
    · omega

theorem cols_fold_getD (h w : Nat) (i : Int) (cols : List Int) (m : Mask)
    (hm : maskShape h w m) (hi : 0 ≤ i ∧ i < (h : Int))
    (a b : Nat) (ha : a < h) (hb : b < w)
    (hcols : ∀ c ∈ cols, 0 ≤ c ∧ c < (w : Int)) :
    ((cols.foldl (fun acc c => set_mask acc i.toNat c.toNat) m).getD a []).getD b false =
      (if a = i.toNat ∧ (b : Int) ∈ cols then true else (m.getD a []).getD b false) := by
  revert hcols
  induction cols generalizing m with
  | nil =>
    intro _
    simp
  | cons c cs ih =>
    intro hcols
    have hc := hcols c (List.mem_cons_self c cs)
    have hcs : ∀ x ∈ cs, 0 ≤ x ∧ x < (w : Int) :=
      fun x hx => hcols x (List.mem_cons_of_mem c hx)
    have hm1 : maskShape h w (set_mask m i.toNat c.toNat) := set_mask_shape h w m _ _ hm
    rw [List.foldl_cons, ih (set_mask m i.toNat c.toNat) hm1 hcs]
    rw [set_mask_getD h w m hm i.toNat c.toNat a b (by omega) (by omega) ha hb]
    have hbc : (b = c.toNat) ↔ ((b : Int) = c) := by omega
    have hiff : ((a = i.toNat ∧ (b : Int) ∈ cs) ∨ (a = i.toNat ∧ b = c.toNat)) ↔
        (a = i.toNat ∧ (b : Int) ∈ c :: cs) := by
      rw [List.mem_cons, hbc]
      tauto
    rw [ite_or_split]
    exact if_congr hiff rfl rfl

theorem mark_cells_shape (h w : Nat) (rows cols : List Int) (m : Mask)
    (hm : maskShape h w m) : maskShape h w (mark_cells rows cols m) := by
  unfold mark_cells
  refine foldl_preserves (maskShape h w) _ ?_ rows m hm
  intro mm i hmm
  refine foldl_preserves (maskShape h w) _ ?_ cols mm hmm
  intro mm2 c hmm2
  exact set_mask_shape h w mm2 _ _ hmm2

theorem mark_cells_getD (h w : Nat) (rows cols : List Int) (m : Mask)
    (hm : maskShape h w m)
    (hcols : ∀ x ∈ cols, 0 ≤ x ∧ x < (w : Int))
    (a b : Nat) (ha : a < h) (hb : b < w)
    (hrows : ∀ x ∈ rows, 0 ≤ x ∧ x < (h : Int)) :
    ((mark_cells rows cols m).getD a []).getD b false =
      (if (a : Int) ∈ rows ∧ (b : Int) ∈ cols then true else (m.getD a []).getD b false) := by
  revert hrows
  induction rows generalizing m with
  | nil =>
    intro _
    simp [mark_cells]
  | cons rr rs ih =>
    intro hrows
    have hr := hrows rr (List.mem_cons_self rr rs)
    have hrs : ∀ x ∈ rs, 0 ≤ x ∧ x < (h : Int) :=
      fun x hx => hrows x (List.mem_cons_of_mem rr hx)
    have hinner : maskShape h w (cols.foldl (fun acc c => set_mask acc rr.toNat c.toNat) m) := by
      refine foldl_preserves (maskShape h w) _ ?_ cols m hm
      intro mm2 c hmm2
      exact set_mask_shape h w mm2 _ _ hmm2
    have hstep : mark_cells (rr :: rs) cols m =
        mark_cells rs cols (cols.foldl (fun acc c => set_mask acc rr.toNat c.toNat) m) := by
      simp [mark_cells]
    rw [hstep, ih _ hinner hrs]
    rw [cols_fold_getD h w rr cols m hm hr a b ha hb hcols]
    have har : (a = rr.toNat) ↔ ((a : Int) = rr) := by omega
    have hiff : (((a : Int) ∈ rs ∧ (b : Int) ∈ cols) ∨ (a = rr.toNat ∧ (b : Int) ∈ cols)) ↔
        ((a : Int) ∈ rr :: rs ∧ (b : Int) ∈ cols) := by
      rw [List.mem_cons, har]
      tauto
    rw [ite_or_split]
    exact if_congr hiff rfl rfl

/-- Claim C5: in the local-window regime (`limited_visibility = true`,
`show_explored = false`) with a known player position `(y, x)`, the mask
computed by `_visible_grid` is a full-size `h × w` array that is true at
exactly the in-grid cells of the 3×3 neighborhood of `(y, x)` (the clipping
to the grid bounds being exactly the restriction to in-grid cells) and false
at every other cell; the mask is a pure function of the current position,
recomputed at every render. -/
theorem C5_local_window (cfg : IncConfig) (game : IncGame) (name : String)
    (y x : Int) (mask : Mask)
    (hl : cfg.limited_visibility = true) (hs : cfg.show_explored = false)
    (hp : get_player_position game name = .ok (some (y, x)))
    (hm : visible_grid cfg game name = .ok (some mask)) :
    maskShape cfg.height cfg.width mask ∧
    ∀ i, i < cfg.height → ∀ j, j < cfg.width →
      ((mask.getD i []).getD j false = true ↔
        (y - 1 ≤ (i : Int) ∧ (i : Int) ≤ y + 1 ∧ x - 1 ≤ (j : Int) ∧ (j : Int) ≤ x + 1)) := by
  unfold visible_grid at hm
  rw [hl, hs] at hm
  simp only [Bool.not_true, Bool.false_eq_true, if_false, hp] at hm
  simp only [Except.ok.injEq, Option.some.injEq] at hm
  subst hm
  have hm0 : maskShape cfg.height cfg.width
      (List.replicate cfg.height (List.replicate cfg.width false)) := by
    refine ⟨by simp, ?_⟩
    intro i hi2
    rw [getD_replicate _ _ _ _ hi2]
    simp
  have hrows : ∀ xi ∈ intRange (max 0 (y - 1)) (min (cfg.height : Int) (y + 2)),
      0 ≤ xi ∧ xi < (cfg.height : Int) := by
    intro xi hxi
    rw [mem_intRange] at hxi
    omega
  have hcols : ∀ xj ∈ intRange (max 0 (x - 1)) (min (cfg.width : Int) (x + 2)),
      0 ≤ xj ∧ xj < (cfg.width : Int) := by
    intro xj hxj
    rw [mem_intRange] at hxj
    omega
  refine ⟨mark_cells_shape _ _ _ _ _ hm0, ?_⟩
  intro i hi2 j hj2
  rw [mark_cells_getD _ _ _ _ _ hm0 hcols i j hi2 hj2 hrows]
  rw [getD_replicate _ _ _ _ hi2, getD_replicate _ _ _ _ hj2]
  constructor
  · intro hval
    by_cases hcond : (i : Int) ∈ intRange (max 0 (y - 1)) (min (cfg.height : Int) (y + 2)) ∧
        (j : Int) ∈ intRange (max 0 (x - 1)) (min (cfg.width : Int) (x + 2))
    · rw [mem_intRange, mem_intRange] at hcond
      omega
    · simp [hcond] at hval
  · intro hcond
    have hmem : (i : Int) ∈ intRange (max 0 (y - 1)) (min (cfg.height : Int) (y + 2)) ∧
        (j : Int) ∈ intRange (max 0 (x - 1)) (min (cfg.width : Int) (x + 2)) := by
      rw [mem_intRange, mem_intRange]
      omega
    simp [hmem]

/-- Claim C5 witness: the local window of a player at `(0, 0)` in a 3×3 grid
is exactly the clipped 2×2 corner block. -/
theorem C5_local_window_witness :
    maskShape c5cfg.height c5cfg.width c5mask ∧
    ∀ i, i < c5cfg.height → ∀ j, j < c5cfg.width →
      ((c5mask.getD i []).getD j false = true ↔
        (0 - 1 ≤ (i : Int) ∧ (i : Int) ≤ 0 + 1 ∧ 0 - 1 ≤ (j : Int) ∧ (j : Int) ≤ 0 + 1)) :=
  C5_local_window c5cfg c5game "Player 1" 0 0 c5mask rfl rfl rfl rfl

/-- Claim C6: under exploration memory, a player's explored map is monotone
across `_move_player`: every cell already marked true for that player before a
(successful) move is still true afterwards — entries are only ever set, never
cleared, within an episode. This also holds trivially when `show_explored` is
off (the map is untouched). -/
theorem C6_explored_monotone (cfg : IncConfig) (game : IncGame) (name direction : String)
    (game' : IncGame) (d : List (String × Mask)) (m : Mask)
    (hmv : move_player cfg game name direction = .ok game')
    (hd : game.explored = some d) (hm : d.lookup name = some m)
    (a b : Nat) (ht : (m.getD a []).getD b false = true) :
    ∃ d' m', game'.explored = some d' ∧ d'.lookup name = some m' ∧
      (m'.getD a []).getD b false = true := by
  unfold move_player at hmv
  split at hmv
  · exact absurd hmv (by simp)
  · exact absurd hmv (by simp)
  · rename_i y x hpos
    split at hmv
    · exact absurd hmv (by simp)
    · rename_i obj hobj
      split at hmv
      · exact absurd hmv (by simp)
      · rename_i g1 hrem
        split at hmv
        · exact absurd hmv (by simp)
        · rename_i g2 hadd
          split at hmv
          · exact absurd hmv (by simp)
          · rename_i game2 hif
            split at hmv
            · exact absurd hmv (by simp)
            · rename_i dp hdp
              simp only [Except.ok.injEq] at hmv
              subst hmv
              cases hse : cfg.show_explored with
              | false =>
                rw [hse] at hif
                simp only [Bool.false_eq_true, if_false, Except.ok.injEq] at hif
                subst hif
                exact ⟨d, m, hd, hm, ht⟩
              | true =>
                rw [hse] at hif
                simp only [if_true] at hif
                unfold mark_explored at hif
                simp only [hd, hm] at hif
                simp only [Except.ok.injEq] at hif
                subst hif
                exact ⟨_, _, rfl, lookup_dictInsert_self d name _,
                  mark_explored_mask_mono cfg.height cfg.width m _ a b ht⟩

/-- Claim C6 witness: after the player moves south in the 3×3
exploration-memory game, the cell `(0, 0)` explored at reset stays explored. -/
theorem C6_explored_monotone_witness :
    ∃ d' m', c6result.explored = some d' ∧ d'.lookup "Player 1" = some m' ∧
      (m'.getD 0 []).getD 0 false = true :=
  C6_explored_monotone c6cfg c6game "Player 1" "s" c6result
    [("Player 1", c6explored)] c6explored rfl rfl rfl 0 0 rfl

/-- Claim C7 counterexample: in the local-window regime, a player with no
entry at all in the player-position map does not get the full-visibility
fallback — `_get_player_position` raises `KeyError`. (The fallback only
covers an entry that is present but `None`.) -/
theorem C7_counterexample :
    visible_grid c7cfg c7game "Player 1" = .error "KeyError: _player_positions" ∧
    visible_grid c7cfg c7game "Player 1" ≠ .ok (some (full_mask 2 2)) :=
  ⟨rfl, fun h => Except.noConfusion h⟩

/-- Claim C7 (amended): under full visibility the mask is all-true regardless
of positions; in the local-window regime a position entry that is present but
null falls back to the all-true mask with no error, while a missing entry
raises `KeyError`; and in the exploration-memory regime the position map is
not consulted at all — the stored explored map (possibly none) is returned
whether or not the player has a known position. -/
theorem C7_position_fallback (cfg : IncConfig) (game : IncGame) (name : String) :
    (cfg.limited_visibility = false →
      visible_grid cfg game name = .ok (some (full_mask cfg.height cfg.width))) ∧
    (cfg.limited_visibility = true → cfg.show_explored = false →
      ∀ d, game.player_positions = some d → d.lookup name = some none →
      visible_grid cfg game name = .ok (some (full_mask cfg.height cfg.width))) ∧
    (cfg.limited_visibility = true → cfg.show_explored = false →
      ∀ d, game.player_positions = some d → d.lookup name = none →
      visible_grid cfg game name = .error "KeyError: _player_positions") ∧
    (cfg.limited_visibility = true → cfg.show_explored = true →
      ∀ e, game.explored = some e →
      visible_grid cfg game name = .ok (e.lookup name)) := by
  refine ⟨?_, ?_, ?_, ?_⟩
  · intro hl
    unfold visible_grid
    simp [hl]
  · intro hl hs d hd hv
    unfold visible_grid get_player_position
    simp [hl, hs, hd, hv]
  · intro hl hs d hd hv
    unfold visible_grid get_player_position
    simp [hl, hs, hd, hv]
  · intro hl hs e he
    unfold visible_grid
    simp [hl, hs, he]

/-- Claim C7 witness: a present-but-null position entry in the local-window
regime yields the all-true fallback mask without an error. -/
theorem C7_position_fallback_witness :
    visible_grid c7cfg c7bgame "Player 1" = .ok (some (full_mask c7cfg.height c7cfg.width)) :=
  (C7_position_fallback c7cfg c7bgame "Player 1").2.1 rfl rfl
    [("Player 1", none)] rfl rfl

theorem pyIdx_natCast (n k : Nat) (h : k < n) : pyIdx n (k : Int) = some k := by
  unfold pyIdx
  rw [if_pos (by omega : (0 : Int) ≤ (k : Int) ∧ (k : Int) < (n : Int))]
  simp

theorem in_bounds_iff (h w : Nat) (p : Int × Int) :
    in_bounds h w p = true ↔
      (0 ≤ p.2 ∧ p.2 < (w : Int) ∧ 0 ≤ p.1 ∧ p.1 < (h : Int)) := by
  unfold in_bounds
  exact decide_eq_true_iff

theorem gridShape_row (h w : Nat) (g : Grid) (hg : gridShape h w g) (y : Nat) (hy : y < h) :
    (g.getD y []).length = w :=
  hg.2 _ (getD_mem g y [] (hg.1 ▸ hy))

theorem gridShape_update (h w : Nat) (g : Grid) (y x : Nat) (c : GridCell)
    (hg : gridShape h w g) (hy : y < h) :
    gridShape h w (g.set y ((g.getD y []).set x c)) := by
  obtain ⟨h1, h2⟩ := hg
  refine ⟨by simp [h1], ?_⟩
  intro r hr
  rcases List.mem_or_eq_of_mem_set hr with hmem | hset
  · exact h2 r hmem
  · subst hset
    rw [List.length_set]
    exact h2 _ (getD_mem g y [] (h1 ▸ hy))

theorem grid_get_set (g : Grid) (y x : Nat) (c : GridCell) (a b : Nat)
    (hy : y < g.length) (hx : x < (g.getD y []).length) :
    grid_get (g.set y ((g.getD y []).set x c)) a b =
      if a = y ∧ b = x then c else grid_get g a b := by
  unfold grid_get
  by_cases hay : a = y
  · subst hay
    rw [getD_set_self _ _ _ _ hy]
    by_cases hbx : b = x
    · subst hbx
      rw [getD_set_self _ _ _ _ hx]
      simp
    · rw [getD_set_ne _ _ _ _ _ fun hh => hbx hh.symm]
      simp [hbx]
  · rw [getD_set_ne _ _ _ _ _ fun hh => hay hh.symm]
    simp [hay]

/-- Claim C9: `_move_player` with a direction from the four compass moves and
an in-bounds destination succeeds and realizes remove-from-old-cell,
position-mutate, add-to-new-cell: afterwards the player's (position-mutated)
object occurs in the stack of exactly one cell — the cell at its new position,
with multiplicity one — and in no other cell, and the player-position map
entry equals the moved object's `position` field. The hypotheses are the
well-formedness of the state before the move: the recorded position is in
bounds and matches the object's position field, the object is the topmost of
its cell's stack, it occurs in exactly that one cell, and no equal object
already sits at the destination. -/
theorem C9_exclusive_cell_ownership (cfg : IncConfig) (game : IncGame)
    (name direction : String)
    (d : List (String × Option (Int × Int))) (y x : Nat) (obj : Obj)
    (hd : game.player_positions = some d)
    (hpos : d.lookup name = some (some ((y : Int), (x : Int))))
    (hy : y < cfg.height) (hx : x < cfg.width)
    (hg : gridShape cfg.height cfg.width game.grid)
    (hop : obj.position = ((y : Int), (x : Int)))
    (htop : (grid_get game.grid y x).objects.getLast? = some obj)
    (hcount : ∀ a, a < cfg.height → ∀ b, b < cfg.width →
      (grid_get game.grid a b).objects.count obj = if a = y ∧ b = x then 1 else 0)
    (hdir : direction = "n" ∨ direction = "s" ∨ direction = "e" ∨ direction = "w")
    (hnew : in_bounds cfg.height cfg.width (move_player_dest y x obj direction) = true)
    (hfresh : ∀ a, a < cfg.height → ∀ b, b < cfg.width →
      ({ obj with position := move_player_dest y x obj direction } : Obj) ∉
        (grid_get game.grid a b).objects)
    (hexp : cfg.show_explored = true →
      ∃ e msk, game.explored = some e ∧ e.lookup name = some msk) :
    ∃ game', move_player cfg game name direction = .ok game' ∧
      (∀ a, a < cfg.height → ∀ b, b < cfg.width →
        (grid_get game'.grid a b).objects.count
            ({ obj with position := move_player_dest y x obj direction } : Obj) =
          if a = (move_player_dest y x obj direction).1.toNat ∧
              b = (move_player_dest y x obj direction).2.toNat then 1 else 0) ∧
      (∃ d', game'.player_positions = some d' ∧
        d'.lookup name =
          some (some (({ obj with position := move_player_dest y x obj direction } : Obj).position))) := by
  have hnb := (in_bounds_iff cfg.height cfg.width _).mp hnew
  set np : Int × Int := move_player_dest (y : Int) (x : Int) obj direction with hnpdef
  set obj2 : Obj := { obj with position := np } with hobj2def
  have hnp : np ≠ ((y : Int), (x : Int)) := by
    rw [hnpdef]
    unfold move_player_dest
    rcases hdir with hD | hD | hD | hD <;> subst hD <;>
      simp [Prod.ext_iff]
  set cell0 : GridCell := grid_get game.grid y x with hcell0
  set g1 : Grid := game.grid.set y ((game.grid.getD y []).set x
    { cell0 with objects := cell0.objects.erase obj }) with hg1def
  have hmem0 : obj ∈ cell0.objects := by
    have hc := hcount y hy x hx
    rw [if_pos ⟨rfl, rfl⟩] at hc
    have hpos0 : 0 < cell0.objects.count obj := by
      rw [hc]
      exact Nat.one_pos
    exact List.count_pos_iff.mp hpos0
  have hrow : (game.grid.getD y []).length = cfg.width :=
    gridShape_row cfg.height cfg.width game.grid hg y hy
  have h4 : remove_object game.grid obj = .ok g1 := by
    unfold remove_object
    rw [hop]
    simp only [hg.1, hrow, pyIdx_natCast cfg.height y hy, pyIdx_natCast cfg.width x hx]
    rw [if_pos (by exact hmem0)]
    rfl
  have hg1shape : gridShape cfg.height cfg.width g1 :=
    gridShape_update cfg.height cfg.width game.grid y x _ hg hy
  have hynh : np.1.toNat < cfg.height := by omega
  have hxnw : np.2.toNat < cfg.width := by omega
  have hnyx : ¬(np.1.toNat = y ∧ np.2.toNat = x) := by
    rintro ⟨e1, e2⟩
    exact hnp (Prod.ext (by omega) (by omega))
  set cell1 : GridCell := grid_get g1 np.1.toNat np.2.toNat with hcell1
  set g2 : Grid := grid_set g1 np.1.toNat np.2.toNat
    { cell1 with objects := cell1.objects ++ [obj2] } with hg2def
  have h5 : add_object cfg.height cfg.width g1 obj2 = .ok g2 := by
    unfold add_object
    rw [if_pos (show in_bounds cfg.height cfg.width obj2.position = true from hnew)]
  have hgrid_g1 : ∀ a, a < cfg.height → ∀ b, b < cfg.width →
      grid_get g1 a b = if a = y ∧ b = x then
        { cell0 with objects := cell0.objects.erase obj } else grid_get game.grid a b := by
    intro a ha b hb
    rw [hg1def]
    exact grid_get_set game.grid y x _ a b (hg.1 ▸ hy) (hrow ▸ hx)
  have hgrid_g2 : ∀ a, a < cfg.height → ∀ b, b < cfg.width →
      grid_get g2 a b = if a = np.1.toNat ∧ b = np.2.toNat then
        { cell1 with objects := cell1.objects ++ [obj2] } else grid_get g1 a b := by
    intro a ha b hb
    rw [hg2def]
    unfold grid_set
    exact grid_get_set g1 np.1.toNat np.2.toNat _ a b (hg1shape.1 ▸ hynh)
      ((gridShape_row cfg.height cfg.width g1 hg1shape np.1.toNat hynh) ▸ hxnw)
  have hcnt : ∀ a, a < cfg.height → ∀ b, b < cfg.width →
      (grid_get g2 a b).objects.count obj2 =
        if a = np.1.toNat ∧ b = np.2.toNat then 1 else 0 := by
    intro a ha b hb
    rw [hgrid_g2 a ha b hb]
    by_cases hc1 : a = np.1.toNat ∧ b = np.2.toNat
    · rw [if_pos hc1, if_pos hc1]
      have hcell1eq : cell1 = grid_get game.grid np.1.toNat np.2.toNat := by
        rw [hcell1, hgrid_g1 np.1.toNat hynh np.2.toNat hxnw, if_neg hnyx]
      have hnot : obj2 ∉ cell1.objects := by
        rw [hcell1eq]
        exact hfresh np.1.toNat hynh np.2.toNat hxnw
      simp [List.count_append, List.count_eq_zero.mpr hnot]
    · rw [if_neg hc1, if_neg hc1, hgrid_g1 a ha b hb]
      by_cases hc2 : a = y ∧ b = x
      · rw [if_pos hc2]
        have hnot : obj2 ∉ cell0.objects := by
          rw [hcell0]
          obtain ⟨rfl, rfl⟩ := hc2
          exact hfresh a ha b hb
        have hnot2 : obj2 ∉ cell0.objects.erase obj :=
          fun hmem => hnot (List.mem_of_mem_erase hmem)
        simpa using List.count_eq_zero.mpr hnot2
      · rw [if_neg hc2]
        exact List.count_eq_zero.mpr (hfresh a ha b hb)
  have h1 : get_player_position game name = .ok (some ((y : Int), (x : Int))) := by
    unfold get_player_position
    rw [hd]
    simp [hpos]
  have h2 : get_objects_at cfg.height cfg.width game.grid ((y : Int), (x : Int)) =
      cell0.objects := by
    unfold get_objects_at
    rw [if_pos ((in_bounds_iff _ _ _).mpr (by constructor <;> omega))]
    rw [hcell0]
    simp [grid_get]
  have h3 : get_player_object cfg game name = .ok obj := by
    unfold get_player_object
    rw [h1]
    simp [h2, hcell0 ▸ htop]
  cases hse : cfg.show_explored with
  | false =>
    refine ⟨{ grid := g2, player_positions := some (dictInsert d name (some np)),
              explored := game.explored }, ?_, hcnt, ⟨_, rfl, lookup_dictInsert_self d name _⟩⟩
    unfold move_player
    rw [h1]
    simp only [h3, h4, ← hnpdef, ← hobj2def, h5, hse, Bool.false_eq_true, if_false]
    simp only [hd]
  | true =>
    obtain ⟨e, msk, he, hmsk⟩ := hexp hse
    refine ⟨{ grid := g2, player_positions := some (dictInsert d name (some np)),
              explored := some (dictInsert e name
                (mark_explored_mask cfg.height cfg.width msk np)) }, ?_, hcnt,
            ⟨_, rfl, lookup_dictInsert_self d name _⟩⟩
    have hmark : mark_explored cfg { game with grid := g2 } name np =
        .ok { grid := g2, player_positions := game.player_positions,
              explored := some (dictInsert e name
                (mark_explored_mask cfg.height cfg.width msk np)) } := by
      unfold mark_explored
      simp only [he, hmsk]
    unfold move_player
    rw [h1]
    simp only [h3, h4, ← hnpdef, ← hobj2def, h5, hse, if_true, hmark]
    simp only [hd]

/-- Claim C9 witness: moving the single player of the 2×2 game south places
its object in exactly the cell `(1, 0)` and updates the position map to the
object's position. -/
theorem C9_exclusive_cell_ownership_witness :
    ∃ game', move_player c9cfg c9game "Player 1" "s" = .ok game' ∧
      (∀ a, a < c9cfg.height → ∀ b, b < c9cfg.width →
        (grid_get game'.grid a b).objects.count
            ({ playerObject "Player 1" (0, 0) with
               position := move_player_dest 0 0 (playerObject "Player 1" (0, 0)) "s" } : Obj) =
          if a = (move_player_dest 0 0 (playerObject "Player 1" (0, 0)) "s").1.toNat ∧
              b = (move_player_dest 0 0 (playerObject "Player 1" (0, 0)) "s").2.toNat
          then 1 else 0) ∧
      (∃ d', game'.player_positions = some d' ∧
        d'.lookup "Player 1" =
          some (some (({ playerObject "Player 1" (0, 0) with
            position := move_player_dest 0 0 (playerObject "Player 1" (0, 0)) "s" } : Obj).position))) :=
  C9_exclusive_cell_ownership c9cfg c9game "Player 1" "s"
    [("Player 1", some (0, 0))] 0 0 (playerObject "Player 1" (0, 0))
    rfl rfl (by decide) (by decide) ⟨rfl, by decide⟩ rfl rfl (by decide)
    (Or.inr (Or.inl rfl)) (by decide) (by decide) (fun h => Bool.noConfusion h)

end Clem
